import Mathlib

/-!
Verification of the tavily-rag-pipeline repository.

This file gives a shallow embedding, in Lean 4, of the pure logic of the
repository's four source files:

* `src/agent/langraph_pipeline.py` — the pipeline nodes, the conditional
  routing predicate `_critique_condition`, the adaptive retrieval-depth
  selection inside `_search_and_context_node`, and the node/edge topology
  registered by `_build_graph`;
* `src/agent/tavily_search.py` — the validation and wrapping logic of
  `tavily_search`, the retry configuration applied to it, and the
  evidence filter `format_context_from_tavily`;
* `src/agent/llm_response.py` — the parse-and-fallback logic of
  `generate_subqueries`.

Python floats appearing as relevance scores are modelled as rationals
(`ℚ`); Python strings as Lean `String`; Python exceptions as `Except`.
External-library behaviour that the repository only configures (the
`tenacity` retry combinators, the langgraph executor) is modelled
explicitly where needed, as documented at each definition.
-/

/-- Model of Python's `needle in haystack` prefix test at one position:
`startsWithChars n h` is true when `n` is an initial segment of `h`. -/
def startsWithChars : List Char → List Char → Bool
  | [], _ => true
  | _ :: _, [] => false
  | a :: as, b :: bs => a == b && startsWithChars as bs

/-- Model of Python's substring containment `needle in haystack`
on character lists. -/
def hasSubChars (needle : List Char) : List Char → Bool
  | [] => needle.isEmpty
  | c :: cs => startsWithChars needle (c :: cs) || hasSubChars needle cs

/-- Model of Python's `needle in haystack` on strings. -/
def hasSubstr (haystack needle : String) : Bool :=
  hasSubChars needle.data haystack.data

/-- Model of Python's `str.lower()` (ASCII case folding, which covers
every string the pipeline compares). -/
def pyLower (s : String) : String :=
  String.mk (s.data.map Char.toLower)

/-- Model of Python's `sep.join(parts)`. -/
def pyJoin (sep : String) : List String → String
  | [] => ""
  | [s] => s
  | s :: rest => s ++ sep ++ pyJoin sep rest

/-- Number of maximal non-whitespace runs: the length of Python's
`s.split()` result, counted with an in-word flag. -/
def wordCountAux : List Char → Bool → Nat
  | [], _ => 0
  | c :: cs, inWord =>
    if c.isWhitespace then wordCountAux cs false
    else (if inWord then 0 else 1) + wordCountAux cs true

/-- Model of Python's `len(s.split())`. -/
def wordCount (s : String) : Nat :=
  wordCountAux s.data false

/-- The `AgentState` TypedDict of `src/agent/langraph_pipeline.py`. -/
structure AgentState where
  query : String
  subqueries : List String
  combined_context : String
  response : String
  revised_response : String
deriving DecidableEq

/-- `TavilyRAGPipeline._critique_condition` from
`src/agent/langraph_pipeline.py` line 120:
`"search_context" if "inaccurate" in state["response"].lower() else "publish"`. -/
def critique_condition (state : AgentState) : String :=
  if hasSubstr (pyLower state.response) "inaccurate" then ("search_context") else ("publish")

/-- The depth selection of `_search_and_context_node`
(`src/agent/langraph_pipeline.py` lines 61-62):
`use_advanced = len(subquery.split()) > 8 or len(state["subqueries"]) > 3`,
`depth = "advanced" if use_advanced else "basic"`. -/
def selectDepth (subquery : String) (totalSubqueries : Nat) : String :=
  if 8 < wordCount subquery || 3 < totalSubqueries then ("advanced") else ("basic")

/-- The spec's depth-selection rule, stated on the pair
`(wordCount, totalSubqueryCount)` directly. -/
def depthRule (wc totalSubqueries : Nat) : String :=
  if 8 < wc || 3 < totalSubqueries then ("advanced") else ("basic")

/-- One entry of the `results` list of a Tavily response, as consumed by
`format_context_from_tavily`: a Python dict in which each of the keys
`title`, `content`, `score` may be absent (`none`). Scores, Python
floats in the source, are modelled as rationals. -/
structure TavilyResult where
  title : Option String
  content : Option String
  score : Option ℚ
deriving DecidableEq

/-- `r.get("score", 0)` from `src/agent/tavily_search.py`. -/
def getScore (r : TavilyResult) : ℚ :=
  r.score.getD 0

/-- Insertion step of a stable descending sort by score: the inserted
element passes over exactly the elements of strictly greater score, so
earlier elements precede later ones on ties, as Python's stable
`sorted(..., reverse=True)` guarantees. -/
def insertByScoreDesc (x : TavilyResult) : List TavilyResult → List TavilyResult
  | [] => [x]
  | y :: ys => if getScore x < getScore y then y :: insertByScoreDesc x ys else x :: y :: ys

/-- `sorted(results, key=lambda r: r.get("score", 0), reverse=True)` from
`src/agent/tavily_search.py` line 77, as a stable descending insertion sort. -/
def sortByScoreDesc (results : List TavilyResult) : List TavilyResult :=
  results.foldr insertByScoreDesc []

/-- `sorted_results[0].get("score", 0)` from `src/agent/tavily_search.py`
line 78 (the source only evaluates it on non-empty input; the `[]` case
is an arbitrary default). -/
def topScore (results : List TavilyResult) : ℚ :=
  match sortByScoreDesc results with
  | [] => 0
  | r :: _ => getScore r

/-- The kept results,
`[r for r in sorted_results if (top_score - r.get("score", 0)) <= score_max_diff][:max_results]`
from `src/agent/tavily_search.py` line 79. -/
def filteredResults (results : List TavilyResult) (scoreMaxDiff : ℚ) (maxResults : Nat) :
    List TavilyResult :=
  ((sortByScoreDesc results).filter
    (fun r => decide (topScore results - getScore r ≤ scoreMaxDiff))).take maxResults

/-- One block `f"{r['title']}:\n{r['content']}\n\n"` from
`src/agent/tavily_search.py` line 82; `r['k']` on a dict missing `k`
raises `KeyError('k')`, modelled as `Except.error "k"`. -/
def formatPart (r : TavilyResult) : Except String String :=
  match r.title with
  | none => .error ("title")
  | some t =>
    match r.content with
    | none => .error ("content")
    | some c => .ok (t ++ ":\n" ++ c ++ "\n\n")

/-- The list comprehension of `src/agent/tavily_search.py` line 82,
evaluated left to right, propagating the first `KeyError`. -/
def formatParts : List TavilyResult → Except String (List String)
  | [] => .ok []
  | r :: rs =>
    match formatPart r with
    | .error k => .error k
    | .ok s =>
      match formatParts rs with
      | .error k => .error k
      | .ok ss => .ok (s :: ss)

/-- The source's default `score_max_diff=0.08`. -/
def scoreMaxDiffDefault : ℚ := 8 / 100

/-- The source's default `max_results=4`. -/
def maxResultsDefault : Nat := 4

/-- `format_context_from_tavily` from `src/agent/tavily_search.py`
lines 61-84, on the `results` list of the response dict. A raised
`KeyError('k')` is `Except.error "k"`; a returned string is `Except.ok`. -/
def format_context_from_tavily (results : List TavilyResult)
    (scoreMaxDiff : ℚ) (maxResults : Nat) : Except String String :=
  if results.isEmpty then .ok ("No relevant information found.")
  else if (filteredResults results scoreMaxDiff maxResults).isEmpty then
    .ok ("No high-confidence sources available.")
  else
    match formatParts (filteredResults results scoreMaxDiff maxResults) with
    | .error k => .error k
    | .ok parts => .ok (pyJoin ("\n\n") parts)

/-- A retrieval result as the spec's §4.3 declares the filter's input
shape: all three fields present. -/
structure SpecResult where
  title : String
  content : String
  score : ℚ
deriving DecidableEq

/-- Embedding of the spec's total result shape into the dict model. -/
def toTavily (r : SpecResult) : TavilyResult :=
  ⟨some r.title, some r.content, some r.score⟩

/-- Stable descending insertion step on spec-shaped results. -/
def insertSpecDesc (x : SpecResult) : List SpecResult → List SpecResult
  | [] => [x]
  | y :: ys => if x.score < y.score then y :: insertSpecDesc x ys else x :: y :: ys

/-- The spec's §4.3 "sort results by score descending". -/
def sortSpecDesc (results : List SpecResult) : List SpecResult :=
  results.foldr insertSpecDesc []

/-- The spec's §4.3 "`topScore` = score of the first" (after sorting). -/
def specTopScore (results : List SpecResult) : ℚ :=
  match sortSpecDesc results with
  | [] => 0
  | r :: _ => r.score

/-- The spec's §4.3 kept set: "keep all results whose
`topScore − score ≤ scoreMaxDiff`, truncated to `maxResults`". -/
def specKeptList (results : List SpecResult) (scoreMaxDiff : ℚ) (maxResults : Nat) :
    List SpecResult :=
  ((sortSpecDesc results).filter
    (fun r => decide (specTopScore results - r.score ≤ scoreMaxDiff))).take maxResults

/-- The spec's §4.3 per-result format `"<title>:\n<content>\n\n"`. -/
def fmtSpec (r : SpecResult) : String :=
  r.title ++ ":\n" ++ r.content ++ "\n\n"

/-- The spec's §4.3 reference algorithm for the evidence filter: empty
input gives the literal; otherwise sort, keep, format, join with blank
lines. -/
def specEvidenceFilter (results : List SpecResult) (scoreMaxDiff : ℚ) (maxResults : Nat) :
    String :=
  match results with
  | [] => "No relevant information found."
  | _ :: _ => pyJoin ("\n\n") ((specKeptList results scoreMaxDiff maxResults).map fmtSpec)

/-- `LLM.generate_subqueries` from `src/agent/llm_response.py` lines
112-122, with the raw-response cleaning, `json.loads` (Python standard
library, external to the repository) and the
`isinstance(parsed, list) and all(isinstance(q, str) ...)` check
abstracted into one optional parse result: `some l` when the cleaned
model output parses as a JSON list whose elements are all strings,
`none` on any parse failure or other shape. The source then returns
`parsed[:max_subqueries]`, and `[query]` on the exceptional path. -/
def generate_subqueries (parsed : Option (List String)) (query : String)
    (maxSubqueries : Nat) : List String :=
  match parsed with
  | some l => l.take maxSubqueries
  | none => [query]

-- scratch checks of the filter on the spec's §8 example

/-- Python exceptions relevant to `tavily_search`: the repository's
`TavilySearchError` carrying its message, or any other exception. -/
inductive PyErr where
  | tavilyError (msg : String)
  | otherError (msg : String)
deriving DecidableEq

/-- `retry_if_exception_type(TavilySearchError)` from
`src/agent/tavily_search.py` line 30: the predicate deciding which
exceptions are retried. -/
def isTavilyError : PyErr → Bool
  | .tavilyError _ => true
  | .otherError _ => false

/-- Modelled from the spec (§4.2) and tenacity's documented semantics:
`wait_exponential(multiplier, min, max)` sleeps
`max(min, min(multiplier * 2**n, max))` after attempt `n`; tenacity is
external to the repository. With the integral parameters used in the
source the waits are natural numbers of time units. -/
def tenacityWait (multiplier lo hi n : Nat) : Nat :=
  max lo (min (multiplier * 2 ^ n) hi)

/-- The wait function as configured at `src/agent/tavily_search.py`
line 29: `wait_exponential(multiplier=1, min=2, max=10)`. -/
def tavilyWait (n : Nat) : Nat :=
  tenacityWait 1 2 10 n

/-- Outcome of a retried call: the final result, the number of attempts
made, and the waits slept between attempts. -/
structure RetryOutcome (α : Type) where
  result : Except PyErr α
  attempts : Nat
  waits : List Nat

/-- Modelled from the spec (§4.2 retry policy) and tenacity's documented
semantics for `retry(reraise=True, stop=stop_after_attempt(..), wait=..,
retry=retry_if_exception_type(..))` as configured at
`src/agent/tavily_search.py` lines 26-31; tenacity is external to the
repository. Attempt `k` (1-based) runs the body, whose outcome is
`action k`: a success returns at once; an exception that `retriable`
rejects propagates at once; a retriable exception is retried after
`wait k` until no attempts remain, and then the last attempt's original
exception is re-raised unchanged (`reraise=True`). `remaining` is the
number of further attempts the stop condition still allows. -/
def retryGo (retriable : PyErr → Bool) (wait : Nat → Nat)
    (action : Nat → Except PyErr α) : (k remaining : Nat) → RetryOutcome α
  | k, remaining =>
    match action k with
    | .ok a => ⟨.ok a, k, []⟩
    | .error e =>
      if retriable e then
        match remaining with
        | 0 => ⟨.error e, k, []⟩
        | r + 1 =>
          let o := retryGo retriable wait action (k + 1) r
          ⟨o.result, o.attempts, wait k :: o.waits⟩
      else ⟨.error e, k, []⟩

/-- The retry policy wrapped around `tavily_search`
(`src/agent/tavily_search.py` lines 26-31): `stop_after_attempt(3)`
means one first attempt plus at most two more. -/
def tavilyRetryRun (action : Nat → Except PyErr α) : RetryOutcome α :=
  retryGo isTavilyError tavilyWait action 1 2

/-- One attempt of the body of `tavily_search`
(`src/agent/tavily_search.py` lines 43-58): the length validation, the
credential check (Python's falsy test, so a missing key and an empty
string both fail), then the provider call, any failure of which is
wrapped as `TavilySearchError(f"[Tavily SDK Error] {e}")`. `provider k`
abstracts the external `AsyncTavilyClient.search` call plus result
formatting on attempt `k`: `.ok context` is the formatted context,
`.error msg` an exception rendered as `msg`. -/
def tavilySearchAttempt (apiKey : Option String)
    (provider : Nat → Except String String) (query : String) (k : Nat) :
    Except PyErr String :=
  if 400 < query.length then
    .error (.tavilyError ("Query is too long. Max query length is 400 characters."))
  else if apiKey.getD ("") = "" then
    .error (.tavilyError ("Tavily API key not found."))
  else
    match provider k with
    | .ok ctx => .ok ctx
    | .error e => .error (.tavilyError ("[Tavily SDK Error] " ++ e))

/-- `tavily_search` as deployed: the retry policy around the body. -/
def tavily_search_run (apiKey : Option String)
    (provider : Nat → Except String String) (query : String) : RetryOutcome String :=
  tavilyRetryRun (tavilySearchAttempt apiKey provider query)

/-- Run outcome of the modelled engine: normal publication, or the
spec's degraded termination at the iteration cap. -/
inductive Outcome where
  | published
  | degraded
deriving DecidableEq

/-- Result of one engine run: retrieval passes performed, the final
response, and the outcome flag. -/
structure EngineResult where
  retrievalPasses : Nat
  response : String
  outcome : Outcome
deriving DecidableEq

/-- The spec's §4.5 router: retry iff the verdict text contains the
case-insensitive substring "inaccurate". -/
def routeRetry (verdictText : String) : Bool :=
  hasSubstr (pyLower verdictText) "inaccurate"

/-- Modelled from the spec: the run-graph executor with its per-run
iteration cap (§4.1) belongs to the engine, which the repository
delegates to the external langgraph dependency, so no engine source is
under `src/`. One loop iteration is a retrieval pass followed by answer
synthesis, critique, and routing on the verdict; `gen k` is the
generation-provider stub's output on pass `k` (the same provider serves
synthesis and critique). `remaining` is how many further retrieval
passes the cap allows; when the router asks for a retry the cap no
longer allows, the engine forces the transition to the terminal sink
with the best available response and a `degraded` outcome (§4.1, §8). -/
def engineLoop (gen : Nat → String) : (remaining passesDone : Nat) → EngineResult
  | 0, passesDone => ⟨passesDone, gen passesDone, .degraded⟩
  | remaining + 1, passesDone =>
    let k := passesDone + 1
    if routeRetry (gen k) then engineLoop gen remaining k
    else ⟨k, gen k, .published⟩

/-- `run(initialState, runId, maxIterations)` of the modelled engine on
the pipeline's linear flow with the critique-retry cycle. -/
def engineRun (gen : Nat → String) (maxIterations : Nat) : EngineResult :=
  engineLoop gen maxIterations 0

/-- A graph topology as registered on the builder: declared node names,
unconditional edges, and conditional edges (source plus label-to-target
mapping). -/
structure Topology where
  nodes : List String
  edges : List (String × String)
  condEdges : List (String × List (String × String))
deriving DecidableEq

/-- Compile-time rejections of the modelled engine (spec §4.1/§7/§9). -/
inductive EngineError where
  | ambiguousRouting (node : String)
  | topologyError
deriving DecidableEq

/-- Whether node `n` has both an unconditional edge and a conditional
edge registered. -/
def hasDualEdge (t : Topology) (n : String) : Bool :=
  t.edges.any (fun e => e.fst == n) && t.condEdges.any (fun c => c.fst == n)

/-- A name is resolvable when declared as a node or one of the
engine's entry/terminal markers. -/
def isDeclared (t : Topology) (n : String) : Bool :=
  n == "__start__" || n == "__end__" || t.nodes.contains n

/-- The spec's §4.1 topology checks: every referenced name declared and
every node with an outgoing edge. -/
def topologyOk (t : Topology) : Bool :=
  (t.edges.all fun e => isDeclared t e.fst && isDeclared t e.snd)
    && (t.condEdges.all fun c => isDeclared t c.fst && c.snd.all fun m => isDeclared t m.snd)
    && (t.nodes.all fun n =>
          t.edges.any (fun e => e.fst == n) || t.condEdges.any (fun c => c.fst == n))

/-- Modelled from the spec: `compile()` (§4.1) belongs to the engine,
which the repository delegates to the external langgraph dependency, so
no engine source is under `src/`. Per §4.1/§9 it rejects a node
carrying both an unconditional and a conditional edge with
`AmbiguousRoutingError`, and otherwise rejects malformed topologies
with `TopologyError`. -/
def compileGraph (t : Topology) : Except EngineError Topology :=
  match t.nodes.filter (fun n => hasDualEdge t n) with
  | n :: _ => .error (.ambiguousRouting n)
  | [] => if topologyOk t then .ok t else .error .topologyError

/-- The topology registered by `TavilyRAGPipeline._build_graph`
(`src/agent/langraph_pipeline.py` lines 130-155): the five nodes, the
six unconditional edges, and the conditional edges from
`critique_and_revise` with the label-to-target mapping of lines
148-155; `__start__`/`__end__` stand for langgraph's `START`/`END`. -/
def pipelineTopology : Topology :=
  ⟨["parse", "search_context", "llm", "critique_and_revise", "publish"],
   [("__start__", "parse"), ("parse", "search_context"),
    ("search_context", "llm"), ("llm", "critique_and_revise"),
    ("critique_and_revise", "publish"), ("publish", "__end__")],
   [("critique_and_revise",
     [("search_context", "search_context"), ("publish", "publish")])]⟩

set_option maxRecDepth 4000 in

theorem getScore_toTavily (r : SpecResult) : getScore (toTavily r) = r.score := rfl

theorem insertByScoreDesc_map (r : SpecResult) (l : List SpecResult) :
    insertByScoreDesc (toTavily r) (l.map toTavily) = (insertSpecDesc r l).map toTavily := by
  induction l with
  | nil => rfl
  | cons y ys ih =>
    simp only [List.map, insertByScoreDesc, insertSpecDesc, getScore_toTavily]
    by_cases h : r.score < y.score
    · simp [h, ih]
    · simp [h]

theorem sortByScoreDesc_map (l : List SpecResult) :
    sortByScoreDesc (l.map toTavily) = (sortSpecDesc l).map toTavily := by
  induction l with
  | nil => rfl
  | cons r rs ih =>
    show insertByScoreDesc (toTavily r) (sortByScoreDesc (rs.map toTavily)) = _
    rw [ih]
    exact insertByScoreDesc_map r (sortSpecDesc rs)

theorem topScore_map (l : List SpecResult) :
    topScore (l.map toTavily) = specTopScore l := by
  unfold topScore specTopScore
  rw [sortByScoreDesc_map]
  cases sortSpecDesc l with
  | nil => rfl
  | cons r rs => rfl

theorem filteredResults_map (l : List SpecResult) (d : ℚ) (m : Nat) :
    filteredResults (l.map toTavily) d m = (specKeptList l d m).map toTavily := by
  unfold filteredResults specKeptList
  rw [sortByScoreDesc_map, topScore_map, List.filter_map, ← List.map_take]
  rfl

theorem formatParts_map (l : List SpecResult) :
    formatParts (l.map toTavily) = .ok (l.map fmtSpec) := by
  induction l with
  | nil => rfl
  | cons r rs ih =>
    have he : formatParts ((r :: rs).map toTavily)
        = match formatParts (rs.map toTavily) with
          | .error k => .error k
          | .ok ss => .ok (fmtSpec r :: ss) := rfl
    rw [he, ih]
    rfl

theorem length_insertByScoreDesc (x : TavilyResult) (l : List TavilyResult) :
    (insertByScoreDesc x l).length = l.length + 1 := by
  induction l with
  | nil => rfl
  | cons y ys ih =>
    simp only [insertByScoreDesc]
    by_cases h : getScore x < getScore y
    · simp [h, ih]
    · simp [h]

theorem length_sortByScoreDesc (l : List TavilyResult) :
    (sortByScoreDesc l).length = l.length := by
  induction l with
  | nil => rfl
  | cons x xs ih =>
    show (insertByScoreDesc x (sortByScoreDesc xs)).length = _
    rw [length_insertByScoreDesc, ih]
    rfl

theorem sortByScoreDesc_ne_nil {l : List TavilyResult} (h : l ≠ []) :
    sortByScoreDesc l ≠ [] := by
  intro hs
  apply h
  have hlen := length_sortByScoreDesc l
  rw [hs] at hlen
  exact List.length_eq_zero.mp hlen.symm

theorem filteredResults_ne_nil (l : List TavilyResult) (d : ℚ) (m : Nat)
    (hl : l ≠ []) (hd : 0 ≤ d) (hm : m ≠ 0) :
    filteredResults l d m ≠ [] := by
  obtain ⟨x, xs, hx⟩ : ∃ x xs, sortByScoreDesc l = x :: xs := by
    cases hs : sortByScoreDesc l with
    | nil => exact absurd hs (sortByScoreDesc_ne_nil hl)
    | cons x xs => exact ⟨x, xs, rfl⟩
  have htop : topScore l = getScore x := by unfold topScore; rw [hx]
  unfold filteredResults
  rw [hx, List.filter_cons_of_pos]
  · obtain ⟨m', rfl⟩ : ∃ m', m = m' + 1 :=
      ⟨m - 1, (Nat.succ_pred_eq_of_pos (Nat.pos_of_ne_zero hm)).symm⟩
    simp [List.take]
  · rw [htop]
    simp only [sub_self, decide_eq_true_eq]
    exact hd

theorem newline_mem_fmtPart {f : TavilyResult} {s : String} (h : formatPart f = .ok s) :
    '\n' ∈ s.data := by
  unfold formatPart at h
  cases ht : f.title with
  | none => rw [ht] at h; exact absurd h (by simp)
  | some t =>
    rw [ht] at h
    cases hc : f.content with
    | none => rw [hc] at h; exact absurd h (by simp)
    | some c =>
      rw [hc] at h
      injection h with h2
      rw [← h2, String.data_append]
      exact List.mem_append_right _ (by decide)

theorem newline_mem_pyJoin {s : String} (sep : String) (ss : List String)
    (h : '\n' ∈ s.data) : '\n' ∈ (pyJoin sep (s :: ss)).data := by
  cases ss with
  | nil => exact h
  | cons s2 rest =>
    show '\n' ∈ (s ++ sep ++ pyJoin sep (s2 :: rest)).data
    rw [String.data_append, String.data_append]
    exact List.mem_append_left _ (List.mem_append_left _ h)

theorem formatParts_cons_ok {f : TavilyResult} {fs : List TavilyResult}
    {parts : List String} (h : formatParts (f :: fs) = .ok parts) :
    ∃ s ss, parts = s :: ss ∧ formatPart f = .ok s := by
  have he : formatParts (f :: fs)
      = match formatPart f with
        | .error k => .error k
        | .ok s =>
          match formatParts fs with
          | .error k => .error k
          | .ok ss => .ok (s :: ss) := rfl
  rw [he] at h
  cases hf : formatPart f with
  | error k => rw [hf] at h; exact absurd h (by simp)
  | ok s =>
    rw [hf] at h
    cases hrest : formatParts fs with
    | error k => rw [hrest] at h; exact absurd h (by simp)
    | ok ss =>
      rw [hrest] at h
      injection h with h2
      exact ⟨s, ss, h2.symm, rfl⟩

/-- Claim C1 (evidence of the code bug): `_critique_condition` routes on
`state["response"]`, not on the critic's verdict stored in
`state["revised_response"]`. On a state whose verdict text contains
"inaccurate" but whose response does not, the code returns the publish
label even though the claim requires the retry label; symmetrically, a
response containing "inaccurate" routes to retry under a verdict of
"The response is OK.". -/
theorem c1_router_reads_response_not_verdict :
    critique_condition
      ⟨"What is the capital of France?", [], "",
       "The capital of France is Paris.", "This is inaccurate and misses X."⟩ = "publish"
    ∧ hasSubstr (pyLower ("This is inaccurate and misses X.")) "inaccurate" = true
    ∧ critique_condition
        ⟨"What is the capital of France?", [], "",
         "This answer is inaccurate nonsense.", "The response is OK."⟩ = "search_context"
    ∧ hasSubstr (pyLower ("The response is OK.")) "inaccurate" = false := by
  refine ⟨by decide, by decide, by decide, by decide⟩

/-- Claim C4 counterexample: when the model output is the literal two
character string of an empty JSON array, `json.loads` yields the empty
list, which passes the list-of-strings check vacuously, so
`generate_subqueries` returns the empty sequence — refuting the claim
that decomposition always returns a non-empty sequence. -/
theorem c4_counterexample_empty_json_list :
    generate_subqueries (some []) "What is LangGraph?" 15 = [] := rfl

/-- Claim C4 (amended): decomposition returns at most `maxSubqueries`
(15) strings; it returns exactly `[originalQuery]` whenever the model
output fails to parse as a JSON list of strings; and the result is
non-empty whenever the parse fails or the parsed list is non-empty —
only a successfully parsed empty list yields the empty sequence. -/
theorem c4_subqueries_bounded_with_fallback (parsed : Option (List String))
    (query : String) :
    (generate_subqueries parsed query 15).length ≤ 15
    ∧ (parsed = none → generate_subqueries parsed query 15 = [query])
    ∧ (∀ l, parsed = some l → l ≠ [] → generate_subqueries parsed query 15 ≠ []) := by
  refine ⟨?_, ?_, ?_⟩
  · cases parsed with
    | none => simp [generate_subqueries]
    | some l =>
      simp only [generate_subqueries]
      exact le_trans (List.length_take_le 15 l) (le_refl 15)
  · intro h; rw [h]; rfl
  · intro l h hne
    rw [h]
    simp [generate_subqueries, List.take_eq_nil_iff, hne]

theorem c4_witness :
    generate_subqueries none ("Tell me about X and Y") 15 = ["Tell me about X and Y"]
    ∧ generate_subqueries (some ["a", "b"]) "q" 15 ≠ [] :=
  ⟨(c4_subqueries_bounded_with_fallback none ("Tell me about X and Y")).2.1 rfl,
   (c4_subqueries_bounded_with_fallback (some ["a", "b"]) "q").2.2 ["a", "b"] rfl (by simp)⟩

/-- Claim C8: depth selection factors through the pair
`(wordCount(subquery), totalSubqueryCount)` by exactly the spec's rule,
and the boundary cases behave as claimed: 8 words yield basic and 9
words advanced (with one sub-query), 3 sub-queries yield basic and 4
advanced (with a two-word sub-query). -/
theorem c8_depth_selection_pure :
    (∀ (s : String) (n : Nat), selectDepth s n = depthRule (wordCount s) n)
    ∧ wordCount ("a b c d e f g h") = 8
    ∧ selectDepth ("a b c d e f g h") 1 = "basic"
    ∧ wordCount ("a b c d e f g h i") = 9
    ∧ selectDepth ("a b c d e f g h i") 1 = "advanced"
    ∧ selectDepth ("short query") 3 = "basic"
    ∧ selectDepth ("short query") 4 = "advanced" :=
  ⟨fun _ _ => rfl, by decide, by decide, by decide, by decide, by decide, by decide⟩

/-- Claim C9: on every non-empty result list (scores are rationals in
the model, so every score is a well-formed non-NaN value) the kept set
is non-empty — the top-ranked result satisfies the score-difference
test — hence the filter never returns the literal
"No high-confidence sources available.". -/
theorem c9_top_result_always_kept (results : List TavilyResult)
    (h : results ≠ []) :
    filteredResults results scoreMaxDiffDefault maxResultsDefault ≠ []
    ∧ format_context_from_tavily results scoreMaxDiffDefault maxResultsDefault
        ≠ .ok ("No high-confidence sources available.") := by
  have hfil := filteredResults_ne_nil results scoreMaxDiffDefault maxResultsDefault h
    (by norm_num [scoreMaxDiffDefault]) (by norm_num [maxResultsDefault])
  refine ⟨hfil, ?_⟩
  have h1 : results.isEmpty = false := List.isEmpty_eq_false.mpr h
  have h2 : (filteredResults results scoreMaxDiffDefault maxResultsDefault).isEmpty
      = false := List.isEmpty_eq_false.mpr hfil
  unfold format_context_from_tavily
  rw [h1, h2]
  simp only [Bool.false_eq_true, if_false]
  cases hp : formatParts (filteredResults results scoreMaxDiffDefault maxResultsDefault) with
  | error k => simp
  | ok parts =>
    simp only []
    intro heq
    injection heq with hs
    obtain ⟨f, fs, hffs⟩ := List.exists_cons_of_ne_nil hfil
    rw [hffs] at hp
    obtain ⟨sp, ss, rfl, hok⟩ := formatParts_cons_ok hp
    have hnl : '\n' ∈ (pyJoin ("\n\n") (sp :: ss)).data :=
      newline_mem_pyJoin _ _ (newline_mem_fmtPart hok)
    rw [hs] at hnl
    exact absurd hnl (by decide)

theorem c9_witness :
    filteredResults [⟨some ("T"), some ("C"), some 1⟩] scoreMaxDiffDefault maxResultsDefault ≠ []
    ∧ format_context_from_tavily [⟨some ("T"), some ("C"), some 1⟩]
        scoreMaxDiffDefault maxResultsDefault
        ≠ .ok ("No high-confidence sources available.") :=
  c9_top_result_always_kept [⟨some ("T"), some ("C"), some 1⟩] (by simp)

/-- Claim C6: the deployed evidence filter coincides with the spec's
reference algorithm on every well-shaped result list (all of title,
content and score present); on the §8 example with scores 0.9, 0.85,
0.83, 0.5, 0.4 the kept set is exactly the top three entries; and the
empty input yields the literal "No relevant information found.". -/
theorem c6_filter_equals_reference :
    (∀ rs : List SpecResult,
      format_context_from_tavily (rs.map toTavily) scoreMaxDiffDefault maxResultsDefault
        = .ok (specEvidenceFilter rs scoreMaxDiffDefault maxResultsDefault))
    ∧ specKeptList
        [⟨"T1", "C1", 9/10⟩, ⟨"T2", "C2", 85/100⟩, ⟨"T3", "C3", 83/100⟩,
         ⟨"T4", "C4", 1/2⟩, ⟨"T5", "C5", 2/5⟩] scoreMaxDiffDefault maxResultsDefault
      = [⟨"T1", "C1", 9/10⟩, ⟨"T2", "C2", 85/100⟩, ⟨"T3", "C3", 83/100⟩]
    ∧ specEvidenceFilter
        [⟨"T1", "C1", 9/10⟩, ⟨"T2", "C2", 85/100⟩, ⟨"T3", "C3", 83/100⟩,
         ⟨"T4", "C4", 1/2⟩, ⟨"T5", "C5", 2/5⟩] scoreMaxDiffDefault maxResultsDefault
      = "T1:\nC1\n\n\n\nT2:\nC2\n\n\n\nT3:\nC3\n\n"
    ∧ format_context_from_tavily [] scoreMaxDiffDefault maxResultsDefault
      = .ok ("No relevant information found.") := by
  refine ⟨?_, ?_, ?_, rfl⟩
  · intro rs
    cases rs with
    | nil => rfl
    | cons r l =>
      have hmapne : (r :: l).map toTavily ≠ [] := by simp
      have hfil := filteredResults_ne_nil ((r :: l).map toTavily)
        scoreMaxDiffDefault maxResultsDefault hmapne
        (by norm_num [scoreMaxDiffDefault]) (by norm_num [maxResultsDefault])
      have h1 : ((r :: l).map toTavily).isEmpty = false :=
        List.isEmpty_eq_false.mpr hmapne
      have h2 : (filteredResults ((r :: l).map toTavily)
          scoreMaxDiffDefault maxResultsDefault).isEmpty = false :=
        List.isEmpty_eq_false.mpr hfil
      unfold format_context_from_tavily
      rw [h1, h2]
      simp only [Bool.false_eq_true, if_false]
      rw [filteredResults_map, formatParts_map]
      rfl
  · norm_num [specKeptList, sortSpecDesc, insertSpecDesc, specTopScore,
      scoreMaxDiffDefault, maxResultsDefault, List.filter]
  · norm_num [specEvidenceFilter, specKeptList, sortSpecDesc, insertSpecDesc,
      specTopScore, fmtSpec, pyJoin, scoreMaxDiffDefault, maxResultsDefault, List.filter]
    decide

/-- Claim C10: the evidence filter tolerates a missing "score" key —
the result is ranked with the default score 0, here sorting last and
falling outside the kept band — but is not total in "title" and
"content": a non-empty input whose kept results lack one of those keys
makes formatting raise the corresponding `KeyError` instead of
returning a string. -/
theorem c10_missing_keys_partiality :
    sortByScoreDesc [⟨some ("A"), some ("a"), none⟩, ⟨some ("B"), some ("b"), some (9/10)⟩]
      = [⟨some ("B"), some ("b"), some (9/10)⟩, ⟨some ("A"), some ("a"), none⟩]
    ∧ format_context_from_tavily
        [⟨some ("A"), some ("a"), none⟩, ⟨some ("B"), some ("b"), some (9/10)⟩]
        scoreMaxDiffDefault maxResultsDefault = .ok ("B:\nb\n\n")
    ∧ format_context_from_tavily [⟨none, some ("c"), some (9/10)⟩]
        scoreMaxDiffDefault maxResultsDefault = .error ("title")
    ∧ format_context_from_tavily
        [⟨some ("t"), none, some (9/10)⟩, ⟨some ("B"), some ("b"), some (87/100)⟩]
        scoreMaxDiffDefault maxResultsDefault = .error ("content") := by
  refine ⟨?_, ?_, ?_, ?_⟩
  · norm_num [sortByScoreDesc, insertByScoreDesc, getScore]
  · norm_num [format_context_from_tavily, filteredResults, sortByScoreDesc,
      insertByScoreDesc, topScore, getScore, formatParts, formatPart, pyJoin,
      scoreMaxDiffDefault, maxResultsDefault, List.filter]
    decide
  · norm_num [format_context_from_tavily, filteredResults, sortByScoreDesc,
      insertByScoreDesc, topScore, getScore, formatParts, formatPart,
      scoreMaxDiffDefault, maxResultsDefault, List.filter]
  · norm_num [format_context_from_tavily, filteredResults, sortByScoreDesc,
      insertByScoreDesc, topScore, getScore, formatParts, formatPart,
      scoreMaxDiffDefault, maxResultsDefault, List.filter]

theorem retryGo_ok {α : Type} {retriable : PyErr → Bool} {wait : Nat → Nat}
    {action : Nat → Except PyErr α} {k : Nat} {a : α} (remaining : Nat)
    (h : action k = .ok a) :
    retryGo retriable wait action k remaining = ⟨.ok a, k, []⟩ := by
  unfold retryGo
  rw [h]

theorem retryGo_error_noRetry {α : Type} {retriable : PyErr → Bool} {wait : Nat → Nat}
    {action : Nat → Except PyErr α} {k : Nat} {e : PyErr} (remaining : Nat)
    (h : action k = .error e) (hr : retriable e = false) :
    retryGo retriable wait action k remaining = ⟨.error e, k, []⟩ := by
  unfold retryGo
  rw [h]
  simp [hr]

theorem retryGo_error_zero {α : Type} {retriable : PyErr → Bool} {wait : Nat → Nat}
    {action : Nat → Except PyErr α} {k : Nat} {e : PyErr}
    (h : action k = .error e) (hr : retriable e = true) :
    retryGo retriable wait action k 0 = ⟨.error e, k, []⟩ := by
  unfold retryGo
  rw [h]
  simp [hr]

theorem retryGo_error_succ {α : Type} {retriable : PyErr → Bool} {wait : Nat → Nat}
    {action : Nat → Except PyErr α} {k : Nat} {e : PyErr} (r : Nat)
    (h : action k = .error e) (hr : retriable e = true) :
    retryGo retriable wait action k (r + 1)
      = ⟨(retryGo retriable wait action (k + 1) r).result,
         (retryGo retriable wait action (k + 1) r).attempts,
         wait k :: (retryGo retriable wait action (k + 1) r).waits⟩ := by
  conv_lhs => rw [retryGo]
  rw [h]
  simp [hr]

theorem retryGo_attempts_le {α : Type} (retriable : PyErr → Bool) (wait : Nat → Nat)
    (action : Nat → Except PyErr α) :
    ∀ remaining k, (retryGo retriable wait action k remaining).attempts ≤ k + remaining := by
  intro remaining
  induction remaining with
  | zero =>
    intro k
    cases ha : action k with
    | ok a =>
      rw [retryGo_ok 0 ha]
      show k ≤ k + 0
      omega
    | error e =>
      cases hb : retriable e with
      | false =>
        rw [retryGo_error_noRetry 0 ha hb]
        show k ≤ k + 0
        omega
      | true =>
        rw [retryGo_error_zero ha hb]
        show k ≤ k + 0
        omega
  | succ r ih =>
    intro k
    cases ha : action k with
    | ok a =>
      rw [retryGo_ok (r + 1) ha]
      show k ≤ k + (r + 1)
      omega
    | error e =>
      cases hb : retriable e with
      | false =>
        rw [retryGo_error_noRetry (r + 1) ha hb]
        show k ≤ k + (r + 1)
        omega
      | true =>
        rw [retryGo_error_succ r ha hb]
        show (retryGo retriable wait action (k + 1) r).attempts ≤ k + (r + 1)
        have hih := ih (k + 1)
        omega

/-- Claim C5: the retry policy configured on `tavily_search` makes at
most 3 attempts in total; the wait between attempts is the configured
exponential backoff with multiplier 1 — its first value is 2 time units
and every value is capped at 10; only the retried exception type
(`TavilySearchError`) triggers a retry, any other exception propagating
on the first attempt; and when all 3 attempts raise retriable errors
the caller receives the third attempt's error object unchanged, after
waits of 2 and 4 time units. -/
theorem c5_retry_policy (action : Nat → Except PyErr String) :
    (tavilyRetryRun action).attempts ≤ 3
    ∧ tavilyWait 1 = 2
    ∧ (∀ n, tavilyWait n ≤ 10)
    ∧ (∀ e, action 1 = .error e → isTavilyError e = false →
        tavilyRetryRun action = ⟨.error e, 1, []⟩)
    ∧ (∀ e1 e2 e3, action 1 = .error e1 → action 2 = .error e2 →
        action 3 = .error e3 → isTavilyError e1 = true → isTavilyError e2 = true →
        isTavilyError e3 = true →
        tavilyRetryRun action = ⟨.error e3, 3, [2, 4]⟩) := by
  refine ⟨?_, rfl, ?_, ?_, ?_⟩
  · exact retryGo_attempts_le isTavilyError tavilyWait action 2 1
  · intro n
    unfold tavilyWait tenacityWait
    exact Nat.max_le.mpr ⟨by norm_num, Nat.min_le_right _ _⟩
  · intro e h hr
    unfold tavilyRetryRun
    exact retryGo_error_noRetry 2 h hr
  · intro e1 e2 e3 h1 h2 h3 t1 t2 t3
    unfold tavilyRetryRun
    rw [retryGo_error_succ 1 h1 t1, retryGo_error_succ 0 h2 t2,
      retryGo_error_zero h3 t3]
    rfl

theorem c5_witness :
    tavilyRetryRun (fun _ => (Except.error (PyErr.tavilyError ("boom")) : Except PyErr String))
      = ⟨.error (.tavilyError ("boom")), 3, [2, 4]⟩ :=
  (c5_retry_policy (fun _ => (Except.error (PyErr.tavilyError ("boom")) : Except PyErr String))).2.2.2.2
    _ _ _ rfl rfl rfl rfl rfl rfl

set_option maxRecDepth 4000 in
/-- Claim C2 counterexample: a 401-character sub-query does not fail
fast with a non-retriable error. The validation raises
`TavilySearchError`, which is exactly the exception type the policy
retries, so the run performs 3 attempts, sleeping 2 and then 4 time
units, before the (verbatim) validation error reaches the caller. -/
theorem c2_counterexample_oversized_query_is_retried :
    tavily_search_run (some ("key")) (fun _ => .ok ("ctx"))
        (String.mk (List.replicate 401 'a'))
      = ⟨.error (.tavilyError ("Query is too long. Max query length is 400 characters.")),
         3, [2, 4]⟩ := by
  rfl

/-- Claim C2 (amended): an oversized sub-query, and a missing (or
falsy-empty) provider credential with a well-sized query, make every
attempt of `tavily_search` fail with the corresponding validation
`TavilySearchError` before the provider is contacted; because that is
the retried exception type, the policy performs 3 attempts with waits
of 2 and 4 time units and then surfaces the original error verbatim to
the caller — it does not abort immediately. -/
theorem c2_validation_errors_retried_then_surfaced (apiKey : Option String)
    (provider : Nat → Except String String) (query : String) :
    (400 < query.length →
      tavily_search_run apiKey provider query
        = ⟨.error (.tavilyError ("Query is too long. Max query length is 400 characters.")),
           3, [2, 4]⟩)
    ∧ (query.length ≤ 400 → apiKey.getD ("") = "" →
      tavily_search_run apiKey provider query
        = ⟨.error (.tavilyError ("Tavily API key not found.")), 3, [2, 4]⟩) := by
  constructor
  · intro h
    have ha : tavilySearchAttempt apiKey provider query = fun _ =>
        .error (.tavilyError ("Query is too long. Max query length is 400 characters.")) := by
      funext k
      unfold tavilySearchAttempt
      rw [if_pos h]
    unfold tavily_search_run
    rw [ha]
    rfl
  · intro hlen hkey
    have ha : tavilySearchAttempt apiKey provider query = fun _ =>
        .error (.tavilyError ("Tavily API key not found.")) := by
      funext k
      unfold tavilySearchAttempt
      rw [if_neg (by omega), if_pos hkey]
    unfold tavily_search_run
    rw [ha]
    rfl

theorem c2_witness :
    tavily_search_run none (fun _ => .ok ("ctx")) "short query"
      = ⟨.error (.tavilyError ("Tavily API key not found.")), 3, [2, 4]⟩ :=
  (c2_validation_errors_retried_then_surfaced none (fun _ => .ok ("ctx"))
    "short query").2 (by decide) rfl

theorem engineLoop_all_retry {gen : Nat → String}
    (h : ∀ k, routeRetry (gen k) = true) :
    ∀ remaining passesDone, engineLoop gen remaining passesDone
      = ⟨passesDone + remaining, gen (passesDone + remaining), .degraded⟩ := by
  intro remaining
  induction remaining with
  | zero => intro p; rfl
  | succ r ih =>
    intro p
    show (if routeRetry (gen (p + 1)) then engineLoop gen r (p + 1) else _) = _
    rw [h (p + 1), if_pos rfl, ih (p + 1)]
    have harith : p + 1 + r = p + (r + 1) := by omega
    rw [harith]

/-- Claim C3 (engine modelled from the spec, §4.1/§8): for every
generation stub whose verdict always routes to retry, the run with
iteration cap `maxIterations` terminates after exactly `maxIterations`
retrieval passes with the degraded outcome and the last pass's
response; in particular, with `maxIterations = 3` and a stub always
answering "inaccurate", exactly 3 retrieval passes occur and the run
ends degraded instead of looping forever. -/
theorem c3_iteration_cap_forces_degraded (gen : Nat → String) (maxIterations : Nat)
    (h : ∀ k, routeRetry (gen k) = true) :
    engineRun gen maxIterations
      = ⟨maxIterations, gen maxIterations, .degraded⟩ := by
  unfold engineRun
  rw [engineLoop_all_retry h maxIterations 0]
  simp

theorem c3_witness :
    engineRun (fun _ => "inaccurate") 3 = ⟨3, "inaccurate", .degraded⟩ :=
  c3_iteration_cap_forces_degraded (fun _ => "inaccurate") 3
    (fun _ => show routeRetry ("inaccurate") = true by decide)

/-- Claim C7 (engine modelled from the spec, §4.1/§9): every topology in
which some declared node carries both an unconditional edge and a
conditional edge is rejected by `compile` with an
`AmbiguousRoutingError` naming a dual-edged node, instead of being
compiled. -/
theorem c7_compile_rejects_dual_edges (t : Topology) (n : String)
    (hn : n ∈ t.nodes) (hd : hasDualEdge t n = true) :
    ∃ m, hasDualEdge t m = true ∧ compileGraph t = .error (.ambiguousRouting m) := by
  have hne : t.nodes.filter (fun x => hasDualEdge t x) ≠ [] := by
    intro h0
    have hmem : n ∈ t.nodes.filter (fun x => hasDualEdge t x) :=
      List.mem_filter.mpr ⟨hn, hd⟩
    rw [h0] at hmem
    exact absurd hmem (List.not_mem_nil n)
  cases hf : t.nodes.filter (fun x => hasDualEdge t x) with
  | nil => exact absurd hf hne
  | cons m rest =>
    refine ⟨m, ?_, ?_⟩
    · have hmem : m ∈ t.nodes.filter (fun x => hasDualEdge t x) := by
        rw [hf]
        exact List.mem_cons_self m rest
      exact (List.mem_filter.mp hmem).2
    · unfold compileGraph
      rw [hf]

theorem c7_witness :
    ∃ m, hasDualEdge pipelineTopology m = true
      ∧ compileGraph pipelineTopology = .error (.ambiguousRouting m) :=
  c7_compile_rejects_dual_edges pipelineTopology ("critique_and_revise")
    (by decide) (by decide)
